import Mathlib

/-!
Verification of the batch WebP conversion engine in `src/app.py`.

The engine is shallowly embedded: the filesystem is modelled as the list of
existing paths at the time a worker performs its existence checks, Python
string/path helpers (`os.path.basename`, `os.path.dirname`, `os.path.join`,
`os.path.splitext`, `str.lower`, `str.endswith`, `str(int)`) are modelled over
`String`/`List Char`, and each worker is modelled as a pure function from its
inputs to the effects it performs (directory creation, rename-log appends, the
written file and its EXIF comment, and its outcome).  Fallible paths return
`Except`.  The PyQt signal emissions of the collection loop are modelled as
lists of emitted values in emission order.
-/

namespace WebpConv

/-! ## Python string and path primitives -/

/-- Model of `str(n)` for a natural number: decimal digit characters.
`digitChar d` is the character for digit `d` (digits are always below 10 at
use sites). -/
def digitChar (d : Nat) : Char :=
  match d with
  | 0 => '0' | 1 => '1' | 2 => '2' | 3 => '3' | 4 => '4'
  | 5 => '5' | 6 => '6' | 7 => '7' | 8 => '8' | _ => '9'

/-- Numeric value of a decimal digit character. -/
def digitVal (c : Char) : Nat := c.toNat - 48

/-- Little-endian decimal digits of `n`, with explicit structural fuel so that
the definition evaluates by kernel reduction.  `fuel = n` always suffices. -/
def natDigitsRev (fuel n : Nat) : List Char :=
  match fuel with
  | 0 => []
  | f + 1 => if n = 0 then [] else digitChar (n % 10) :: natDigitsRev f (n / 10)

/-- Model of Python `str(n)` for a nonnegative integer. -/
def natToString (n : Nat) : String :=
  if n = 0 then "0" else String.mk (natDigitsRev n n).reverse

/-- Reconstruct the number from its little-endian digit characters. -/
def ofRevDigits : List Char → Nat
  | [] => 0
  | c :: cs => digitVal c + 10 * ofRevDigits cs

theorem digitVal_digitChar : ∀ d : Nat, d < 10 → digitVal (digitChar d) = d := by
  decide

theorem ofRevDigits_natDigitsRev : ∀ fuel n : Nat, n ≤ fuel →
    ofRevDigits (natDigitsRev fuel n) = n := by
  intro fuel
  induction fuel with
  | zero => intro n hn; interval_cases n; rfl
  | succ f ih =>
    intro n hn
    by_cases h0 : n = 0
    · subst h0; simp [natDigitsRev, ofRevDigits]
    · have hlt : n / 10 < n := Nat.div_lt_self (by omega) (by omega)
      have : ofRevDigits (natDigitsRev f (n / 10)) = n / 10 := ih (n / 10) (by omega)
      simp only [natDigitsRev, h0, if_false, ofRevDigits, this,
        digitVal_digitChar (n % 10) (Nat.mod_lt n (by omega))]
      omega

theorem natToString_inj {m n : Nat} (hm : 0 < m) (hn : 0 < n)
    (h : natToString m = natToString n) : m = n := by
  unfold natToString at h
  rw [if_neg (by omega), if_neg (by omega)] at h
  have hdata : (natDigitsRev m m).reverse = (natDigitsRev n n).reverse :=
    congrArg String.data h
  have hrev : natDigitsRev m m = natDigitsRev n n := List.reverse_injective hdata
  have := congrArg ofRevDigits hrev
  rwa [ofRevDigits_natDigitsRev m m le_rfl, ofRevDigits_natDigitsRev n n le_rfl] at this

/-- Split a character list into groups separated by the path separator. -/
def splitOnSlash : List Char → List (List Char)
  | [] => [[]]
  | x :: xs =>
    match splitOnSlash xs with
    | [] => [[]]
    | g :: gs => if x = '/' then [] :: g :: gs else (x :: g) :: gs

/-- Model of `os.path.basename`: the part of the path after the last
separator. -/
def basename (p : String) : String := String.mk ((splitOnSlash p.data).getLastD [])

/-- Interleave groups with the path separator. -/
def joinSlash : List (List Char) → List Char
  | [] => []
  | [g] => g
  | g :: gs => g ++ '/' :: joinSlash gs

/-- Model of `os.path.dirname`: everything before the last separator (empty
when the path has no separator). -/
def dirname (p : String) : String := String.mk (joinSlash (splitOnSlash p.data).dropLast)

/-- Model of `str.lower` over ASCII text. -/
def pyLower (s : String) : String := String.mk (s.data.map Char.toLower)

/-- Model of `str.endswith`. -/
def pyEndsWith (s suffix : String) : Bool := suffix.data.isSuffixOf s.data

/-- Model of `os.path.join dir name` for a relative second component, as used
by the workers: empty directory yields the name itself, otherwise the
components are joined with a single separator. -/
def pathJoin (d s : String) : String :=
  if d = "" then s else if pyEndsWith d "/" then d ++ s else d ++ "/" ++ s

/-- Index of the last dot in a character list, if any. -/
def rfindDot (cs : List Char) : Option Nat :=
  match cs.reverse.findIdx? (· = '.') with
  | none => none
  | some k => some (cs.length - 1 - k)

/-- Model of `os.path.splitext(s)[0]` for a plain filename (no separator):
everything before the last dot, except that a name whose characters before the
last dot are all dots (for example a leading-dot name) has no extension. -/
def splitextRoot (s : String) : String :=
  match rfindDot s.data with
  | none => s
  | some j =>
    if (s.data.take j).any (fun c => c ≠ '.') then String.mk (s.data.take j) else s

/-! ## String cancellation lemmas used for collision-counter reasoning -/

theorem string_data_ext {s t : String} (h : s.data = t.data) : s = t := by
  cases s; cases t; simp_all

theorem string_append_left_cancel {s x y : String} (h : s ++ x = s ++ y) : x = y := by
  apply string_data_ext
  have hd : s.data ++ x.data = s.data ++ y.data := by
    have := congrArg String.data h
    simpa [String.data_append] using this
  exact List.append_cancel_left hd

theorem string_append_right_cancel {x y s : String} (h : x ++ s = y ++ s) : x = y := by
  apply string_data_ext
  have hd : x.data ++ s.data = y.data ++ s.data := by
    have := congrArg String.data h
    simpa [String.data_append] using this
  exact List.append_cancel_right hd

/-! ## Output path resolver (src/app.py lines 52-69 and 106-123, identical) -/

/-- Candidate output filename for collision counter `k`:
`f"\x7bbase_name\x7d_\x7bcounter\x7d.webp"` at line 64/118. -/
def candName (base : String) (k : Nat) : String :=
  base ++ "_" ++ natToString k ++ ".webp"

/-- Candidate output path for collision counter `k`. -/
def candPath (dir base : String) (k : Nat) : String := pathJoin dir (candName base k)

/-- The while loop of lines 63-66 / 117-120: while the current candidate path
exists, move to the next numbered candidate.  The loop is given an explicit
iteration bound; `fs.length + 1` iterations always suffice (see
`resolveOutput_collision`), because the numbered candidates are pairwise
distinct paths. -/
def collisionLoop (fs : List String) (dir base : String)
    (fn p : String) (counter fuel : Nat) : String × String :=
  match fuel with
  | 0 => (fn, p)
  | f + 1 =>
    if p ∈ fs then
      let fn2 := candName base counter
      collisionLoop fs dir base fn2 (pathJoin dir fn2) (counter + 1) f
    else (fn, p)

/-- Lines 52-69 / 106-123: compute the output filename, the output path and
the rename-log entries appended for this input.  `fs` is the list of paths
existing on the filesystem when the existence checks run, `filename` is the
basename of the input file.  Returns
`(output_filename, output_path, appended rename records)`. -/
def resolveOutput (fs : List String) (filename dir : String) :
    String × String × List String :=
  let output_filename := splitextRoot filename ++ ".webp"
  let output_path := pathJoin dir output_filename
  if output_path ∈ fs then
    let base_name := splitextRoot output_filename
    let res := collisionLoop fs dir base_name output_filename output_path 1 (fs.length + 1)
    (res.1, res.2, [filename ++ " -> " ++ res.1])
  else
    (output_filename, output_path, [])

theorem candName_inj (base : String) {j k : Nat} (hj : 0 < j) (hk : 0 < k)
    (h : candName base j = candName base k) : j = k := by
  unfold candName at h
  have h1 : (base ++ "_") ++ natToString j = (base ++ "_") ++ natToString k :=
    string_append_right_cancel h
  exact natToString_inj hj hk (string_append_left_cancel h1)

theorem candPath_inj (dir base : String) {j k : Nat} (hj : 0 < j) (hk : 0 < k)
    (h : candPath dir base j = candPath dir base k) : j = k := by
  unfold candPath pathJoin at h
  by_cases hd : dir = ""
  · rw [if_pos hd, if_pos hd] at h
    exact candName_inj base hj hk h
  · rw [if_neg hd, if_neg hd] at h
    by_cases hs : pyEndsWith dir "/" = true
    · rw [if_pos hs, if_pos hs] at h
      exact candName_inj base hj hk (string_append_left_cancel h)
    · rw [if_neg hs, if_neg hs] at h
      exact candName_inj base hj hk (string_append_left_cancel h)

/-- Pigeonhole bound for the collision counter: if every numbered candidate
below `k` names an existing path, then `k` cannot exceed one more than the
number of existing paths. -/
theorem counter_le_of_all_exist (fs : List String) (dir base : String) {k : Nat}
    (hall : ∀ j, j < k → 1 ≤ j → candPath dir base j ∈ fs) :
    k ≤ fs.length + 1 := by
  by_contra hgt
  push_neg at hgt
  have hmaps : ∀ a ∈ Finset.Ico 1 k, candPath dir base a ∈ fs.toFinset := by
    intro a ha
    rw [Finset.mem_Ico] at ha
    exact List.mem_toFinset.mpr (hall a ha.2 ha.1)
  have hinj : Set.InjOn (candPath dir base) (Finset.Ico 1 k) := by
    intro a ha b hb hab
    rw [Finset.coe_Ico, Set.mem_Ico] at ha hb
    exact candPath_inj dir base (by omega) (by omega) hab
  have hcard := Finset.card_le_card_of_injOn (candPath dir base) hmaps hinj
  rw [Nat.card_Ico] at hcard
  have := List.toFinset_card_le fs
  omega

/-- When the current candidate does not exist, the loop stops at once. -/
theorem collisionLoop_stop (fs : List String) (dir base fn p : String)
    (counter fuel : Nat) (hp : p ∉ fs) :
    collisionLoop fs dir base fn p counter fuel = (fn, p) := by
  cases fuel with
  | zero => rfl
  | succ f => simp [collisionLoop, hp]

/-- The loop reaches the first free numbered candidate: starting at counter
`c ≤ k` with an existing current path, with all numbered candidates in
`[1, k)` existing and candidate `k` free, the loop returns candidate `k`. -/
theorem collisionLoop_reaches (fs : List String) (dir base : String) {k : Nat}
    (hk1 : 1 ≤ k) (hfree : candPath dir base k ∉ fs)
    (hall : ∀ j, j < k → 1 ≤ j → candPath dir base j ∈ fs) :
    ∀ fuel c fn p, 1 ≤ c → c ≤ k → p ∈ fs → k + 1 - c ≤ fuel →
      collisionLoop fs dir base fn p c fuel = (candName base k, candPath dir base k) := by
  intro fuel
  induction fuel with
  | zero => intro c fn p hc1 hck hp hfuel; omega
  | succ f ih =>
    intro c fn p hc1 hck hp hfuel
    rw [collisionLoop, if_pos hp]
    by_cases hck2 : c < k
    · exact ih (c + 1) (candName base c) (pathJoin dir (candName base c))
        (by omega) (by omega) (hall c hck2 hc1) (by omega)
    · have hc : c = k := by omega
      subst hc
      exact collisionLoop_stop fs dir base (candName base c)
        (pathJoin dir (candName base c)) (c + 1) f hfree

/-- Characterization of `resolveOutput` when the first candidate is free. -/
theorem resolveOutput_no_collision (fs : List String) (filename dir : String)
    (h : pathJoin dir (splitextRoot filename ++ ".webp") ∉ fs) :
    resolveOutput fs filename dir =
      (splitextRoot filename ++ ".webp",
       pathJoin dir (splitextRoot filename ++ ".webp"), []) := by
  unfold resolveOutput
  simp [h]

/-- Characterization of `resolveOutput` when the first candidate collides and
`k` is the least free counter value: the result is the `_k`-suffixed name, and
exactly one rename record is appended, pairing the input filename with the
chosen output filename. -/
theorem resolveOutput_collision (fs : List String) (filename dir : String) {k : Nat}
    (hc : pathJoin dir (splitextRoot filename ++ ".webp") ∈ fs)
    (hk1 : 1 ≤ k)
    (hfree : candPath dir (splitextRoot (splitextRoot filename ++ ".webp")) k ∉ fs)
    (hall : ∀ j, j < k → 1 ≤ j →
      candPath dir (splitextRoot (splitextRoot filename ++ ".webp")) j ∈ fs) :
    resolveOutput fs filename dir =
      (candName (splitextRoot (splitextRoot filename ++ ".webp")) k,
       candPath dir (splitextRoot (splitextRoot filename ++ ".webp")) k,
       [filename ++ " -> " ++
         candName (splitextRoot (splitextRoot filename ++ ".webp")) k]) := by
  unfold resolveOutput
  have hbound := counter_le_of_all_exist fs dir
    (splitextRoot (splitextRoot filename ++ ".webp")) hall
  have hloop := collisionLoop_reaches fs dir
    (splitextRoot (splitextRoot filename ++ ".webp")) hk1 hfree hall
    (fs.length + 1) 1 (splitextRoot filename ++ ".webp")
    (pathJoin dir (splitextRoot filename ++ ".webp")) le_rfl hk1 hc (by omega)
  simp only [hc, if_true, hloop]

/-! ## Batch collection loop (src/app.py lines 77-89 and 158-170, identical) -/

/-- The ok component of a worker result, as appended to `success`. -/
def okPart : Except String String → Option String
  | Except.ok a => some a
  | Except.error _ => none

/-- The error component of a worker result, as sent on `error_signal`. -/
def errPart : Except String String → Option String
  | Except.ok _ => none
  | Except.error e => some e

/-- Emissions of the collection loop, in emission order, plus the `success`
list it builds. -/
structure EngineOutput where
  success : List String
  errors : List String
  progress : List Nat
deriving DecidableEq

/-- Lines 81-87 / 162-168: `for i, future in enumerate(futures)` — each future
result is awaited in submission order; an ok result is appended to `success`
and one progress value `int((i + 1) / len(futures) * 100)` is emitted; an
exception is caught and its message is emitted on `error_signal` (no progress
emission on that branch).  Python float truncation of
`(i + 1) / n * 100` is modelled as exact natural truncation
`(i + 1) * 100 / n`.  `n` is the total number of futures and `i` the
enumeration index of the current one. -/
def collectLoop (n : Nat) : Nat → List (Except String String) → EngineOutput
  | _, [] => ⟨[], [], []⟩
  | i, r :: rest =>
    let tail := collectLoop n (i + 1) rest
    match r with
    | Except.ok result =>
      ⟨result :: tail.success, tail.errors, (i + 1) * 100 / n :: tail.progress⟩
    | Except.error e => ⟨tail.success, e :: tail.errors, tail.progress⟩

/-- Lines 77-89 / 158-170: one future is submitted per input path; the
collection loop then drains them in submission order. -/
def collectOutcomes (results : List (Except String String)) : EngineOutput :=
  collectLoop results.length 0 results

theorem collectLoop_success (n : Nat) :
    ∀ (rs : List (Except String String)) (i : Nat),
      (collectLoop n i rs).success = rs.filterMap okPart := by
  intro rs
  induction rs with
  | nil => intro i; rfl
  | cons r rest ih =>
    intro i
    cases r with
    | ok a => simp [collectLoop, ih (i + 1), okPart, List.filterMap_cons]
    | error e => simp [collectLoop, ih (i + 1), okPart, List.filterMap_cons]

theorem collectLoop_errors (n : Nat) :
    ∀ (rs : List (Except String String)) (i : Nat),
      (collectLoop n i rs).errors = rs.filterMap errPart := by
  intro rs
  induction rs with
  | nil => intro i; rfl
  | cons r rest ih =>
    intro i
    cases r with
    | ok a => simp [collectLoop, ih (i + 1), errPart, List.filterMap_cons]
    | error e => simp [collectLoop, ih (i + 1), errPart, List.filterMap_cons]

/-- The progress emissions are exactly one value `(i + 1) * 100 / n` per ok
result, where `i` is the enumeration index of that result. -/
theorem collectLoop_progress (n : Nat) :
    ∀ (rs : List (Except String String)) (i : Nat),
      (collectLoop n i rs).progress =
        (rs.enumFrom i).filterMap (fun p =>
          match p.2 with
          | Except.ok _ => some ((p.1 + 1) * 100 / n)
          | Except.error _ => none) := by
  intro rs
  induction rs with
  | nil => intro i; rfl
  | cons r rest ih =>
    intro i
    cases r with
    | ok a =>
      simp only [collectLoop, List.enumFrom_cons, List.filterMap_cons]
      rw [ih (i + 1)]
    | error e =>
      simp only [collectLoop, List.enumFrom_cons, List.filterMap_cons]
      rw [ih (i + 1)]

theorem collectLoop_counts (n : Nat) :
    ∀ (rs : List (Except String String)) (i : Nat),
      (collectLoop n i rs).success.length + (collectLoop n i rs).errors.length
        = rs.length := by
  intro rs
  induction rs with
  | nil => intro i; rfl
  | cons r rest ih =>
    intro i
    cases r with
    | ok a => simp only [collectLoop, List.length_cons]; have := ih (i + 1); omega
    | error e => simp only [collectLoop, List.length_cons]; have := ih (i + 1); omega

/-- The progress emissions of the collection loop are non-decreasing, and all
of them are at least `(i + 1) * 100 / n`. -/
theorem collectLoop_progress_sorted (n : Nat) :
    ∀ (rs : List (Except String String)) (i : Nat),
      List.Sorted (· ≤ ·) (collectLoop n i rs).progress ∧
      ∀ x ∈ (collectLoop n i rs).progress, (i + 1) * 100 / n ≤ x := by
  intro rs
  induction rs with
  | nil => intro i; exact ⟨List.sorted_nil, by intro x hx; simp [collectLoop] at hx⟩
  | cons r rest ih =>
    intro i
    have hstep : (i + 1) * 100 / n ≤ (i + 2) * 100 / n :=
      Nat.div_le_div_right (by omega)
    cases r with
    | ok a =>
      obtain ⟨hsorted, hbound⟩ := ih (i + 1)
      constructor
      · exact List.sorted_cons.mpr ⟨fun x hx => le_trans hstep (hbound x hx), hsorted⟩
      · intro x hx
        rcases List.mem_cons.mp hx with h | h
        · omega
        · exact le_trans hstep (hbound x h)
    | error e =>
      obtain ⟨hsorted, hbound⟩ := ih (i + 1)
      exact ⟨hsorted, fun x hx => le_trans hstep (hbound x hx)⟩

/-! ## Workflow metadata model (src/app.py lines 126-148) -/

/-- A structural node of the embedded workflow graph, with its declared type
and an identity distinguishing it from other nodes.  Equality models Python
dict equality as used by `list.remove`. -/
structure WfNode where
  type : String
  id : Nat
deriving DecidableEq

/-- The parsed workflow object `c = json.loads(...)`.  `nodes = none` models
`c.get('nodes')` returning `None` (or a non-iterable), which makes the
filtering loop raise. -/
structure Workflow where
  nodes : Option (List WfNode)
deriving DecidableEq

/-- State of the `workflow` entry of `img.info` for a decoded PNG:
absent, present but not JSON-parseable, or present with its parsed value. -/
inductive RawWorkflow where
  | absent : RawWorkflow
  | invalid (raw : String) : RawWorkflow
  | valid (raw : String) (c : Workflow) : RawWorkflow
deriving DecidableEq

/-- Model of `list.remove(x)`: drop the first element equal to `x`. -/
def removeFirst (x : WfNode) : List WfNode → List WfNode
  | [] => []
  | y :: ys => if y = x then ys else y :: removeFirst x ys

theorem removeFirst_length_le (x : WfNode) :
    ∀ l : List WfNode, (removeFirst x l).length ≤ l.length := by
  intro l
  induction l with
  | nil => simp [removeFirst]
  | cons y ys ih =>
    by_cases h : y = x
    · simp only [removeFirst, if_pos h, List.length_cons]
      omega
    · simp only [removeFirst, if_neg h, List.length_cons]
      omega

/-- Lines 134-136: `for n in nodes: if n['type'] == 'LoraInfo': nodes.remove(n)`.
The Python list iterator holds an index that advances by one after each
yielded element even when the body removes an element (which shifts the
remaining elements left), so after a removal the element that moved into the
removed slot is skipped.  Modelled with the iterator index explicit and
structural fuel; the loop runs at most `nodes.length` iterations because the
index grows each step and the list never grows. -/
def pyRemoveLoraFuel : Nat → Nat → List WfNode → List WfNode
  | 0, _, nodes => nodes
  | fuel + 1, i, nodes =>
    if h : i < nodes.length then
      let n := nodes.get ⟨i, h⟩
      let nodes2 := if n.type = "LoraInfo" then removeFirst n nodes else nodes
      pyRemoveLoraFuel fuel (i + 1) nodes2
    else nodes

/-- The node-filtering loop of lines 134-136 run to completion. -/
def pyRemoveLora (nodes : List WfNode) : List WfNode :=
  pyRemoveLoraFuel nodes.length 0 nodes

/-- Model of `json.dumps` for a workflow node (an abstract canonical
serialization; the claims only compare serializer outputs with each other). -/
def dumpsNode (n : WfNode) : String :=
  "\x7b\"type\": \"" ++ n.type ++ "\", \"id\": " ++ natToString n.id ++ "\x7d"

/-- Model of `json.dumps` for the parsed workflow object. -/
def dumpsWorkflow (c : Workflow) : String :=
  match c.nodes with
  | none => "\x7b\x7d"
  | some ns =>
    "\x7b\"nodes\": [" ++ String.intercalate ", " (ns.map dumpsNode) ++ "]\x7d"

/-- Lines 128-144: the value `dict_of_info.get("workflow", "")` holds after
the filtering try-block, as an `Option` (`none` when the key is absent).
When the field is absent, `json.loads(None)` raises and the key stays absent;
when it is present but not parseable, `json.loads` raises and the raw value is
kept; when it parses but `c.get('nodes')` is not an iterable of nodes, the
`for` loop raises before the `dict_of_info['workflow']` reassignment at line
137, so the raw value is kept; only when filtering completes is the entry
replaced by `json.dumps(c)` with the node list filtered in place. -/
def filteredWorkflowValue : RawWorkflow → Option String
  | RawWorkflow.absent => none
  | RawWorkflow.invalid raw => some raw
  | RawWorkflow.valid raw c =>
    match c.nodes with
    | none => some raw
    | some ns => some (dumpsWorkflow ⟨some (pyRemoveLora ns)⟩)

/-! ## Conversion workers (src/app.py lines 41-75 and 95-156) -/

/-- The observable effects of one worker call: the directory passed to
`os.makedirs(..., exist_ok=True)`, the rename records appended to the shared
`renamed_files` list, the output path written (if the save is reached), the
EXIF tag 0x010E value embedded in it (metadata mode only), and the value
returned or the message of the exception raised (which the engine loop turns
into exactly one `error_signal` emission). -/
structure WorkerEffects where
  madeDir : String
  renamed : List String
  written : Option String
  exifComment : Option String
  outcome : Except String String

/-- Decoded input for the metadata-preserving worker: the input path and the
state of the `workflow` field of the decoded metadata dictionary. -/
structure MetaInput where
  img_path : String
  workflow : RawWorkflow
deriving DecidableEq

/-- Lines 41-73: the plain-mode worker.  The codec save is treated as the
external black box and assumed to succeed; the claims under verification only
concern path resolution and the rename log on this code path. -/
def convert_single_image (fs : List String) (self_output_dir : String)
    (use_same_folder : Bool) (img_path : String) : WorkerEffects :=
  let filename := basename img_path
  let output_dir := if use_same_folder then dirname img_path else self_output_dir
  let r := resolveOutput fs filename output_dir
  { madeDir := output_dir, renamed := r.2.2, written := some r.2.1,
    exifComment := none, outcome := Except.ok r.2.1 }

/-- The message of the exception escaping the metadata worker for a non-PNG
input: the line 153-154 message wrapped by the line 156 re-raise. -/
def nonPngMessage (filename : String) : String :=
  "Failed to convert " ++ filename ++ ": " ++ "Failed to convert " ++ filename ++
    " with ComfyUI workflow.\nConsider using png files with workflow or uncheck keep ComfyUI workflow"

/-- Lines 95-156: the metadata-preserving worker.  Path resolution (directory
selection, collision renaming, `os.makedirs`) happens before the PNG check at
line 126.  On a PNG input the workflow field is filtered best-effort and the
image is saved with EXIF tag 0x010E set to `"Workflow:"` followed by the
resulting value (empty when the field is absent); on any other input the
worker raises, so nothing is written and the outcome is the wrapped error
message.  The codec decode and save are the external black box and assumed to
succeed. -/
def convert_single_image_with_metadata (fs : List String) (self_output_dir : String)
    (use_same_folder : Bool) (inp : MetaInput) : WorkerEffects :=
  let filename := basename inp.img_path
  let output_dir := if use_same_folder then dirname inp.img_path else self_output_dir
  let r := resolveOutput fs filename output_dir
  if pyEndsWith (pyLower filename) ".png" then
    let user_comment := (filteredWorkflowValue inp.workflow).getD ""
    { madeDir := output_dir, renamed := r.2.2, written := some r.2.1,
      exifComment := some ("Workflow:" ++ user_comment), outcome := Except.ok r.2.1 }
  else
    { madeDir := output_dir, renamed := r.2.2, written := none,
      exifComment := none, outcome := Except.error (nonPngMessage filename) }

/-! ## Worker-pool sizing (src/app.py lines 17-24, 78, 159, 217-222, 305-322) -/

/-- The fields stored by `ConversionWorker.__init__` (lines 17-24). -/
structure ConversionWorkerState where
  file_paths : List String
  output_dir : String
  quality : Nat
  keep_workflow : Bool
  use_same_folder : Bool
  cpu_count : Nat
deriving DecidableEq

/-- Lines 17-24: `__init__` stores its five arguments and sets `cpu_count`
from the ambient `multiprocessing.cpu_count()` (passed here explicitly as
`hwCpuCount`); no concurrency argument exists. -/
def ConversionWorker_init (file_paths : List String) (output_dir : String)
    (quality : Nat) (keep_workflow : Bool) (use_same_folder : Bool)
    (hwCpuCount : Nat) : ConversionWorkerState :=
  { file_paths := file_paths, output_dir := output_dir, quality := quality,
    keep_workflow := keep_workflow, use_same_folder := use_same_folder,
    cpu_count := hwCpuCount }

/-- The GUI selections read by `ImageConverter.convert_images`, including the
thread-count spinbox of lines 217-222. -/
structure GuiState where
  file_paths : List String
  output_dir : String
  quality_slider : Nat
  keep_workflow_checked : Bool
  same_folder_checked : Bool
  cpu_spinbox : Nat
deriving DecidableEq

/-- Lines 309-317: the worker constructed by `convert_images`.  The call
passes `file_paths`, `output_dir`, `quality`, the two checkbox states and
nothing else; in particular the `cpu_spinbox` value is not passed. -/
def convert_images_worker (g : GuiState) (hwCpuCount : Nat) : ConversionWorkerState :=
  ConversionWorker_init g.file_paths g.output_dir g.quality_slider
    g.keep_workflow_checked g.same_folder_checked hwCpuCount

/-- Lines 78 / 159: `ThreadPoolExecutor(max_workers=self.cpu_count)`. -/
def poolMaxWorkers (w : ConversionWorkerState) : Nat := w.cpu_count

/-! ## Shared helper lemmas for the claims -/

/-- The progress list has exactly one entry per ok result. -/
theorem collectLoop_progress_length (n : Nat) :
    ∀ (rs : List (Except String String)) (i : Nat),
      (collectLoop n i rs).progress.length = (rs.filterMap okPart).length := by
  intro rs
  induction rs with
  | nil => intro i; rfl
  | cons r rest ih =>
    intro i
    cases r with
    | ok a => simp [collectLoop, ih (i + 1), okPart, List.filterMap_cons]
    | error e => simp [collectLoop, ih (i + 1), okPart, List.filterMap_cons]

/-- On a collision, the resolver appends exactly one rename record pairing the
input filename with the final chosen output filename. -/
theorem resolveOutput_renamed_of_mem (fs : List String) (filename dir : String)
    (h : pathJoin dir (splitextRoot filename ++ ".webp") ∈ fs) :
    (resolveOutput fs filename dir).2.2
      = [filename ++ " -> " ++ (resolveOutput fs filename dir).1] := by
  unfold resolveOutput
  rw [if_pos h]

/-- With no collision, the resolver appends no rename record. -/
theorem resolveOutput_renamed_of_not_mem (fs : List String) (filename dir : String)
    (h : pathJoin dir (splitextRoot filename ++ ".webp") ∉ fs) :
    (resolveOutput fs filename dir).2.2 = [] := by
  rw [resolveOutput_no_collision fs filename dir h]

/-! ## Claims -/

/-- C1: every input path yields exactly one outcome in the batch result.  One
future is submitted per input; the collection loop appends exactly the ok
results to `success` in order, turns each failed future into exactly one
`error_signal` emission in order, and the two counts always add up to the
number of inputs — a failure of one input never prevents any other input from
contributing its own outcome (no fail-fast, no input dropped, no input
duplicated). -/
theorem claim1_one_outcome_per_input (α : Type) (worker : α → Except String String)
    (inputs : List α) :
    (collectOutcomes (inputs.map worker)).success
        = (inputs.map worker).filterMap okPart ∧
    (collectOutcomes (inputs.map worker)).errors
        = (inputs.map worker).filterMap errPart ∧
    (collectOutcomes (inputs.map worker)).success.length
        + (collectOutcomes (inputs.map worker)).errors.length = inputs.length := by
  unfold collectOutcomes
  refine ⟨collectLoop_success _ _ _, collectLoop_errors _ _ _, ?_⟩
  rw [collectLoop_counts, List.length_map]

/-- C2: the claim that every node of type LoraInfo is removed before
re-serialization fails on the code.  With a workflow of two adjacent LoraInfo
nodes, the removal loop of lines 134-136 removes the first node while
iterating, which shifts the list and skips the second node, so the text
embedded in EXIF tag 0x010E serializes a workflow still containing a LoraInfo
node. -/
theorem claim2_adjacent_lorainfo_kept :
    (convert_single_image_with_metadata [] "o" false
        ⟨"X.png", RawWorkflow.valid "raw"
          ⟨some [⟨"LoraInfo", 0⟩, ⟨"LoraInfo", 1⟩]⟩⟩).exifComment
      = some ("Workflow:" ++ dumpsWorkflow ⟨some [⟨"LoraInfo", 1⟩]⟩) ∧
    pyRemoveLora [⟨"LoraInfo", 0⟩, ⟨"LoraInfo", 1⟩] = [⟨"LoraInfo", 1⟩] ∧
    (⟨"LoraInfo", 1⟩ : WfNode).type = "LoraInfo" :=
  ⟨rfl, rfl, rfl⟩

/-- C3: the resolved output path is the input basename with its extension
replaced by `.webp` when that path does not exist; otherwise it is the
`_k`-suffixed candidate for the least `k ≥ 1` whose path does not exist; in
both cases the chosen path never names an existing file. -/
theorem claim3_collision_policy (fs : List String) (filename dir : String) (k : Nat) :
    (pathJoin dir (splitextRoot filename ++ ".webp") ∉ fs →
      resolveOutput fs filename dir
        = (splitextRoot filename ++ ".webp",
           pathJoin dir (splitextRoot filename ++ ".webp"), []) ∧
      (resolveOutput fs filename dir).2.1 ∉ fs) ∧
    (pathJoin dir (splitextRoot filename ++ ".webp") ∈ fs → 1 ≤ k →
      candPath dir (splitextRoot (splitextRoot filename ++ ".webp")) k ∉ fs →
      (∀ j, j < k → 1 ≤ j →
        candPath dir (splitextRoot (splitextRoot filename ++ ".webp")) j ∈ fs) →
      (resolveOutput fs filename dir).2.1
          = candPath dir (splitextRoot (splitextRoot filename ++ ".webp")) k ∧
      (resolveOutput fs filename dir).2.1 ∉ fs) := by
  constructor
  · intro h
    have heq := resolveOutput_no_collision fs filename dir h
    exact ⟨heq, by rw [heq]; exact h⟩
  · intro hc hk1 hfree hall
    have heq := resolveOutput_collision fs filename dir hc hk1 hfree hall
    rw [heq]
    exact ⟨rfl, hfree⟩

/-- C3 witness: with `o/X.webp` and `o/X_1.webp` existing, the resolver picks
the least free counter 2, and the chosen path is not an existing file. -/
theorem claim3_witness :
    (resolveOutput ["o/X.webp", "o/X_1.webp"] "X.png" "o").2.1
        = candPath "o" (splitextRoot (splitextRoot "X.png" ++ ".webp")) 2 ∧
    (resolveOutput ["o/X.webp", "o/X_1.webp"] "X.png" "o").2.1
        ∉ ["o/X.webp", "o/X_1.webp"] :=
  (claim3_collision_policy ["o/X.webp", "o/X_1.webp"] "X.png" "o" 2).2
    (by decide) (by decide) (by decide) (by decide)

/-- C4 counterexample: with `o/X.webp` existing, converting input `X.png`
appends the record "X.png -> X_1.webp" — the left component is the input
filename, not the computed output filename `X.webp` stated by the claim. -/
theorem claim4_counterexample :
    (resolveOutput ["o/X.webp"] "X.png" "o").2.2 = ["X.png -> X_1.webp"] ∧
    (resolveOutput ["o/X.webp"] "X.png" "o").2.2 ≠ ["X.webp -> X_1.webp"] := by
  exact ⟨by decide, by decide⟩

/-- C4 amended: whenever a naming collision is resolved by suffixing, exactly
one rename record is appended, and it pairs the original INPUT filename with
the final chosen output filename; no record is appended when no renaming
occurred. -/
theorem claim4_rename_record (fs : List String) (filename dir : String) :
    (pathJoin dir (splitextRoot filename ++ ".webp") ∈ fs →
      (resolveOutput fs filename dir).2.2
        = [filename ++ " -> " ++ (resolveOutput fs filename dir).1]) ∧
    (pathJoin dir (splitextRoot filename ++ ".webp") ∉ fs →
      (resolveOutput fs filename dir).2.2 = []) :=
  ⟨resolveOutput_renamed_of_mem fs filename dir,
   resolveOutput_renamed_of_not_mem fs filename dir⟩

/-- C4 witness: a colliding conversion appends exactly the one record pairing
the input filename with the chosen name, and a non-colliding one appends
nothing. -/
theorem claim4_witness :
    (resolveOutput ["o/a.webp"] "a.png" "o").2.2
        = ["a.png" ++ " -> " ++ (resolveOutput ["o/a.webp"] "a.png" "o").1] ∧
    (resolveOutput [] "b.png" "o").2.2 = [] :=
  ⟨(claim4_rename_record ["o/a.webp"] "a.png" "o").1 (by decide),
   (claim4_rename_record [] "b.png" "o").2 (by decide)⟩

/-- C5: in metadata mode, an input whose filename does not end in `.png`
case-insensitively yields the descriptive wrapped error of lines 153-156,
writes nothing, is never an entry of the success list (its outcome has no ok
part, and success collects exactly the ok parts), and the raised exception is
caught by the collection loop, which records every failure on `error_signal`
instead of letting it escape. -/
theorem claim5_nonpng_failure (fs : List String) (outdir : String) (same : Bool)
    (inp : MetaInput)
    (h : pyEndsWith (pyLower (basename inp.img_path)) ".png" = false) :
    (convert_single_image_with_metadata fs outdir same inp).outcome
        = Except.error (nonPngMessage (basename inp.img_path)) ∧
    (convert_single_image_with_metadata fs outdir same inp).written = none ∧
    okPart (convert_single_image_with_metadata fs outdir same inp).outcome = none ∧
    ∀ inputs : List MetaInput,
      (collectOutcomes (inputs.map
          (fun j => (convert_single_image_with_metadata fs outdir same j).outcome))).success
        = (inputs.map
            (fun j => (convert_single_image_with_metadata fs outdir same j).outcome)).filterMap
            okPart ∧
      (collectOutcomes (inputs.map
          (fun j => (convert_single_image_with_metadata fs outdir same j).outcome))).errors
        = (inputs.map
            (fun j => (convert_single_image_with_metadata fs outdir same j).outcome)).filterMap
            errPart := by
  refine ⟨?_, ?_, ?_, ?_⟩
  · simp only [convert_single_image_with_metadata, h, Bool.false_eq_true, if_false]
  · simp only [convert_single_image_with_metadata, h, Bool.false_eq_true, if_false]
  · simp only [convert_single_image_with_metadata, h, Bool.false_eq_true, if_false, okPart]
  · intro inputs
    exact ⟨collectLoop_success _ _ _, collectLoop_errors _ _ _⟩

/-- C5 witness: a `.jpg` input in metadata mode fails with the descriptive
message and writes nothing. -/
theorem claim5_witness :
    (convert_single_image_with_metadata [] "o" false
        ⟨"a.jpg", RawWorkflow.absent⟩).outcome
      = Except.error (nonPngMessage (basename "a.jpg")) ∧
    (convert_single_image_with_metadata [] "o" false
        ⟨"a.jpg", RawWorkflow.absent⟩).written = none :=
  ⟨(claim5_nonpng_failure [] "o" false ⟨"a.jpg", RawWorkflow.absent⟩ (by decide)).1,
   (claim5_nonpng_failure [] "o" false ⟨"a.jpg", RawWorkflow.absent⟩ (by decide)).2.1⟩

/-- C6 counterexample: a batch of one input whose conversion fails emits no
progress notification at all, while the claim requires exactly one emission
for that completed (failed) task.  The progress emission at lines 85/166 sits
inside the try-block after `future.result()`, so a raising future skips it. -/
theorem claim6_counterexample :
    (collectOutcomes [Except.error "boom"]).progress.length = 0 ∧
    (collectOutcomes [Except.error "boom"]).progress.length ≠ 1 :=
  ⟨rfl, by decide⟩

/-- C6 amended: a progress notification is emitted exactly once per
SUCCESSFUL task, with value the integer truncation of
`(i + 1) / total * 100` where `i` is the submission index of that task;
failed tasks emit an error notification instead and emit no progress. -/
theorem claim6_progress_per_success (results : List (Except String String)) :
    (collectOutcomes results).progress
        = (results.enumFrom 0).filterMap (fun p =>
            match p.2 with
            | Except.ok _ => some ((p.1 + 1) * 100 / results.length)
            | Except.error _ => none) ∧
    (collectOutcomes results).progress.length = (results.filterMap okPart).length := by
  exact ⟨collectLoop_progress _ _ _, collectLoop_progress_length _ _ _⟩

/-- C7: the sequence of progress-percentage values emitted by the collection
loop, in emission order, is non-decreasing. -/
theorem claim7_progress_monotone (results : List (Except String String)) :
    List.Sorted (· ≤ ·) (collectOutcomes results).progress :=
  (collectLoop_progress_sorted results.length results 0).1

/-- C8: the claim that the pool is sized to the requested concurrency fails
on the code.  `convert_images` never passes the thread-count spinbox value to
`ConversionWorker`, whose `__init__` sets `cpu_count` from
`multiprocessing.cpu_count()`; the pool is therefore always sized to the
hardware thread count: with the spinbox at 1 on an 8-thread machine the pool
still gets 8 workers. -/
theorem claim8_pool_ignores_requested_threads :
    (∀ (g : GuiState) (hw : Nat), poolMaxWorkers (convert_images_worker g hw) = hw) ∧
    poolMaxWorkers (convert_images_worker ⟨["a.png"], "o", 87, false, false, 1⟩ 8) = 8 ∧
    (8 : Nat) ≠ 1 :=
  ⟨fun _ _ => rfl, rfl, by omega⟩

/-- C9: in metadata mode on a PNG input, when the workflow field is absent,
when it is not valid JSON, and when its nodes structure is missing, the
conversion still succeeds and the value embedded after the "Workflow:" prefix
is the unmodified raw value (empty when absent) — filtering failure alone
never yields a Failure outcome. -/
theorem claim9_best_effort_filtering (fs : List String) (outdir : String)
    (same : Bool) (path raw : String)
    (hpng : pyEndsWith (pyLower (basename path)) ".png" = true) :
    ((convert_single_image_with_metadata fs outdir same
        ⟨path, RawWorkflow.absent⟩).exifComment = some ("Workflow:" ++ "") ∧
      (convert_single_image_with_metadata fs outdir same
        ⟨path, RawWorkflow.absent⟩).outcome
        = Except.ok ((resolveOutput fs (basename path)
            (if same then dirname path else outdir)).2.1)) ∧
    ((convert_single_image_with_metadata fs outdir same
        ⟨path, RawWorkflow.invalid raw⟩).exifComment = some ("Workflow:" ++ raw) ∧
      (convert_single_image_with_metadata fs outdir same
        ⟨path, RawWorkflow.invalid raw⟩).outcome
        = Except.ok ((resolveOutput fs (basename path)
            (if same then dirname path else outdir)).2.1)) ∧
    ((convert_single_image_with_metadata fs outdir same
        ⟨path, RawWorkflow.valid raw ⟨none⟩⟩).exifComment
        = some ("Workflow:" ++ raw) ∧
      (convert_single_image_with_metadata fs outdir same
        ⟨path, RawWorkflow.valid raw ⟨none⟩⟩).outcome
        = Except.ok ((resolveOutput fs (basename path)
            (if same then dirname path else outdir)).2.1)) := by
  refine ⟨⟨?_, ?_⟩, ⟨?_, ?_⟩, ⟨?_, ?_⟩⟩ <;>
    simp [convert_single_image_with_metadata, hpng, filteredWorkflowValue]

/-- C9 witness: a concrete PNG named `a.png` with each of the three degraded
workflow states keeps the raw value and succeeds. -/
theorem claim9_witness :
    (convert_single_image_with_metadata [] "o" false
        ⟨"a.png", RawWorkflow.absent⟩).exifComment = some ("Workflow:" ++ "") ∧
    (convert_single_image_with_metadata [] "o" false
        ⟨"a.png", RawWorkflow.invalid "notjson"⟩).exifComment
        = some ("Workflow:" ++ "notjson") ∧
    (convert_single_image_with_metadata [] "o" false
        ⟨"a.png", RawWorkflow.valid "nonodes" ⟨none⟩⟩).exifComment
        = some ("Workflow:" ++ "nonodes") :=
  ⟨(claim9_best_effort_filtering [] "o" false "a.png" "notjson" (by decide)).1.1,
   (claim9_best_effort_filtering [] "o" false "a.png" "notjson" (by decide)).2.1.1,
   (claim9_best_effort_filtering [] "o" false "a.png" "nonodes" (by decide)).2.2.1⟩

/-- C10: in metadata mode a non-PNG input still performs the path-resolution
side effects before the format check at line 126 rejects it: `os.makedirs` is
called on the output directory and, when the candidate name collides, the
rename record is appended to the shared rename log — even though the outcome
is a Failure and no output file is written. -/
theorem claim10_side_effects_before_format_check (fs : List String)
    (outdir : String) (same : Bool) (inp : MetaInput)
    (hnot : pyEndsWith (pyLower (basename inp.img_path)) ".png" = false)
    (hcol : pathJoin (if same then dirname inp.img_path else outdir)
        (splitextRoot (basename inp.img_path) ++ ".webp") ∈ fs) :
    (convert_single_image_with_metadata fs outdir same inp).madeDir
        = (if same then dirname inp.img_path else outdir) ∧
    (convert_single_image_with_metadata fs outdir same inp).renamed
        = [basename inp.img_path ++ " -> "
            ++ (resolveOutput fs (basename inp.img_path)
                  (if same then dirname inp.img_path else outdir)).1] ∧
    (convert_single_image_with_metadata fs outdir same inp).outcome
        = Except.error (nonPngMessage (basename inp.img_path)) ∧
    (convert_single_image_with_metadata fs outdir same inp).written = none := by
  have hren := resolveOutput_renamed_of_mem fs (basename inp.img_path)
    (if same then dirname inp.img_path else outdir) hcol
  refine ⟨?_, ?_, ?_, ?_⟩ <;>
    simp only [convert_single_image_with_metadata, hnot, Bool.false_eq_true, if_false]
  · exact hren

/-- C10 witness: converting `a.jpg` in metadata mode into a directory already
holding `o/a.webp` creates the directory, appends the rename record, fails,
and writes nothing. -/
theorem claim10_witness :
    (convert_single_image_with_metadata ["o/a.webp"] "o" false
        ⟨"a.jpg", RawWorkflow.absent⟩).madeDir = (if false then dirname "a.jpg" else "o") ∧
    (convert_single_image_with_metadata ["o/a.webp"] "o" false
        ⟨"a.jpg", RawWorkflow.absent⟩).written = none :=
  ⟨(claim10_side_effects_before_format_check ["o/a.webp"] "o" false
      ⟨"a.jpg", RawWorkflow.absent⟩ (by decide) (by decide)).1,
   (claim10_side_effects_before_format_check ["o/a.webp"] "o" false
      ⟨"a.jpg", RawWorkflow.absent⟩ (by decide) (by decide)).2.2.2⟩

end WebpConv
